import Mathlib

/-!
Verification of the agent coordination core of `routeoptimizer`
(`src/agents/base_agent.py` and `src/agents/route_agents.py`).

The Python code is shallowly embedded: Python dictionaries become ordered
association lists with Python-dict update semantics (replace in place on an
existing key, append otherwise; keys are unique in every reachable state),
the asyncio message queues become Lean lists (appending models `put`), a
raised exception becomes `Except.error`, `print` output that a claim cares
about is returned explicitly, Python `float` time values become rationals,
and the nondeterministic `uuid4()` / `datetime.now()` values are threaded in
as explicit parameters.  Each agent's handler runs sequentially within its
processing loop, so a handler invocation is a pure state transformer.
-/

/-- Structured values stored in message payloads and in the shared context
blackboard (`Dict[str, Any]` in the Python source).  `null` models Python
`None`. -/
inductive Value where
  | str : String → Value
  | null : Value
  | arr : List Value → Value
  | dict : List (String × Value) → Value

/-- Lookup in an ordered association list, modelling `d.get(k)` / `d[k]` on a
Python dict (first matching key; reachable dicts have unique keys). -/
def assocGet {α : Type} : List (String × α) → String → Option α
  | [], _ => none
  | (k, v) :: t, key => if k = key then some v else assocGet t key

/-- Assignment `d[k] = v` on a Python dict: replace the value at an existing
key in place, otherwise append the new binding at the end. -/
def assocSet {α : Type} : List (String × α) → String → α → List (String × α)
  | [], key, value => [(key, value)]
  | (k, v) :: t, key, value =>
      if k = key then (key, value) :: t else (k, v) :: assocSet t key value

/-- Agent status enum from `base_agent.py`. -/
inductive AgentStatus where
  | idle | working | waiting | error | completed
deriving DecidableEq, Repr

/-- String value of an `AgentStatus`, as in the Python `Enum`. -/
def AgentStatus.value : AgentStatus → String
  | .idle => "idle"
  | .working => "working"
  | .waiting => "waiting"
  | .error => "error"
  | .completed => "completed"

/-- Message type enum from `base_agent.py`. -/
inductive MessageType where
  | request | response | event | command
deriving DecidableEq, Repr

/-- String value of a `MessageType`, as in the Python `Enum`. -/
def MessageType.value : MessageType → String
  | .request => "request"
  | .response => "response"
  | .event => "event"
  | .command => "command"

/-- The `AgentMessage` dataclass.  `id` is the `uuid4()` string and
`timestamp` the `datetime.now()` clock reading, both supplied by the caller
in this embedding. -/
structure AgentMessage where
  id : String
  from_agent : String
  to_agent : String
  type : MessageType
  payload : List (String × Value)
  timestamp : Nat
  correlation_id : Option String

/-- Wire representation `AgentMessage.to_dict`.  The ISO rendering of the
timestamp is abstracted to the decimal rendering of the clock reading. -/
def AgentMessage.to_dict (m : AgentMessage) : Value :=
  .dict [("id", .str m.id),
         ("from", .str m.from_agent),
         ("to", .str m.to_agent),
         ("type", .str m.type.value),
         ("payload", .dict m.payload),
         ("timestamp", .str (toString m.timestamp)),
         ("correlation_id", match m.correlation_id with
                            | some c => .str c
                            | none => .null)]

/-- The `AgentContext` dataclass: shared session blackboard. -/
structure AgentContext where
  session_id : String
  goal : String
  data : List (String × Value)

/-- `AgentContext.get(key)` with the default `None` modelled as `none`.
Call sites that pass another default apply `Option.getD` themselves. -/
def AgentContext.get (c : AgentContext) (key : String) : Option Value :=
  assocGet c.data key

/-- `AgentContext.set(key, value)`: `self.data[key] = value`. -/
def AgentContext.set (c : AgentContext) (key : String) (value : Value) :
    AgentContext :=
  { c with data := assocSet c.data key value }

/-- `AgentContext.update(updates)`: `self.data.update(updates)`, i.e. a fold
of single-key assignment over the updates in order. -/
def AgentContext.update (c : AgentContext) (updates : List (String × Value)) :
    AgentContext :=
  { c with data := updates.foldl (fun d kv => assocSet d kv.1 kv.2) c.data }

/-- The mutable fields of a `BaseAgent` object: identifier, capability tags,
status, performance counters, inbox (`asyncio.Queue` as a list, front =
next to be dequeued) and the bound context. -/
structure AgentRec where
  agent_id : String
  capabilities : List String
  status : AgentStatus
  tasks_completed : Nat
  tasks_failed : Nat
  total_time : ℚ
  inbox : List AgentMessage
  context : Option AgentContext

/-- Result record of `BaseAgent.get_stats`. -/
structure StatsView where
  agent_id : String
  status : String
  capabilities : List String
  tasks_completed : Nat
  tasks_failed : Nat
  avg_time_per_task : ℚ
  success_rate : ℚ

/-- `BaseAgent.get_stats` (base_agent.py lines 181-191), with Python float
division modelled over `ℚ`. -/
def BaseAgent.get_stats (a : AgentRec) : StatsView :=
  { agent_id := a.agent_id,
    status := a.status.value,
    capabilities := a.capabilities,
    tasks_completed := a.tasks_completed,
    tasks_failed := a.tasks_failed,
    avg_time_per_task := a.total_time / ((max a.tasks_completed 1 : ℕ) : ℚ),
    success_rate :=
      (a.tasks_completed : ℚ) /
        ((max (a.tasks_completed + a.tasks_failed) 1 : ℕ) : ℚ) }

/-- Outcome of dispatching one dequeued message to its handler inside
`BaseAgent.process_messages`: the handler either returns normally after
`elapsed` seconds, or raises an exception rendered as `err`. -/
inductive HandlerOutcome where
  | ok (elapsed : ℚ)
  | raises (err : String)

/-- One iteration of the `process_messages` loop (base_agent.py lines
130-158) acting on the dequeued message's handler outcome.  Returns the
updated agent together with the lines printed by the default error hook
`handle_error`. -/
def BaseAgent.processOne (a : AgentRec) (outcome : HandlerOutcome) :
    AgentRec × List String :=
  match outcome with
  | .ok elapsed =>
      ({ a with status := .idle,
                total_time := a.total_time + elapsed,
                tasks_completed := a.tasks_completed + 1 }, [])
  | .raises err =>
      ({ a with status := .error,
                tasks_failed := a.tasks_failed + 1 },
       ["[" ++ a.agent_id ++ "] ERROR: " ++ err])

/-- Running the `process_messages` loop over a finite queue of dequeued
messages (represented by their handler outcomes), accumulating the error
hook's output.  The Python loop is infinite and total — `except Exception`
catches every handler failure — so its effect on any finite queue is this
total recursion, one iteration per queued message. -/
def BaseAgent.processMessages (a : AgentRec) (outs : List HandlerOutcome) :
    AgentRec × List String :=
  match outs with
  | [] => (a, [])
  | o :: rest =>
      ((BaseAgent.processMessages (BaseAgent.processOne a o).1 rest).1,
       (BaseAgent.processOne a o).2 ++
         (BaseAgent.processMessages (BaseAgent.processOne a o).1 rest).2)

/-- Number of handler invocations in a queue that raise. -/
def countRaises (outs : List HandlerOutcome) : Nat :=
  (outs.filter (fun o => match o with | .raises _ => true | _ => false)).length

/-- The `MessageBus`: registered agents (in registration order, unique ids)
and the append-only message log. -/
structure MessageBus where
  agents : List AgentRec
  message_log : List AgentMessage

/-- `MessageBus.send` (base_agent.py lines 209-223): append to the log, then
deliver — to every registered agent except the sender on `"broadcast"`, to
the named agent if registered, and otherwise only print a warning and drop
the message. -/
def MessageBus.send (bus : MessageBus) (message : AgentMessage) : MessageBus :=
  let logged : MessageBus :=
    { bus with message_log := bus.message_log ++ [message] }
  if message.to_agent = "broadcast" then
    { logged with
      agents := logged.agents.map (fun a =>
        if a.agent_id ≠ message.from_agent then
          { a with inbox := a.inbox ++ [message] }
        else a) }
  else if logged.agents.any (fun a => a.agent_id == message.to_agent) then
    { logged with
      agents := logged.agents.map (fun a =>
        if a.agent_id = message.to_agent then
          { a with inbox := a.inbox ++ [message] }
        else a) }
  else
    logged

/-- Inbox of the registered agent with the given id (empty if unregistered);
ids are unique in every reachable bus. -/
def inboxLookup : List AgentRec → String → List AgentMessage
  | [], _ => []
  | a :: t, id => if a.agent_id = id then a.inbox else inboxLookup t id

/-- Inbox of an agent on the bus, by id. -/
def MessageBus.inboxOf (bus : MessageBus) (id : String) : List AgentMessage :=
  inboxLookup bus.agents id

/-- `MessageBus.get_message_history(limit)` (base_agent.py lines 225-227):
`[msg.to_dict() for msg in self.message_log[-limit:]]`.  For `limit = 0` the
Python slice `[-0:]` is `[0:]`, i.e. the whole log; for positive `limit` it
is the suffix of length `min limit length`. -/
def MessageBus.get_message_history (bus : MessageBus) (limit : Nat) :
    List Value :=
  (if limit = 0 then bus.message_log
   else bus.message_log.drop (bus.message_log.length - limit)).map
    AgentMessage.to_dict

/-- Result record of `MessageBus.get_system_stats`. -/
structure SystemStats where
  total_agents : Nat
  agents : List StatsView
  total_messages : Nat

/-- `MessageBus.get_system_stats` (base_agent.py lines 229-235). -/
def MessageBus.get_system_stats (bus : MessageBus) : SystemStats :=
  { total_agents := bus.agents.length,
    agents := bus.agents.map BaseAgent.get_stats,
    total_messages := bus.message_log.length }

/-- Python exceptions raised by the embedded code. -/
inductive PyError where
  | valueError (msg : String)
  | keyError (msg : String)

/-- Result of `Orchestrator.get_progress`: either the `{"error": ...}` dict
or the progress dict with its four fixed keys. -/
inductive ProgressReport where
  | error (msg : String)
  | report (session_id : String) (goal : String)
           (data : List (String × Value)) (system_stats : SystemStats)

/-- The `Orchestrator`: message bus plus the session map `active_goals`. -/
structure Orchestrator where
  message_bus : MessageBus
  active_goals : List (String × AgentContext)

/-- The Command message `start_optimization` builds for the planner
(base_agent.py lines 277-286); `mid` and `ts` stand for the fresh
`uuid4()` and `datetime.now()` of the `AgentMessage` defaults. -/
def plannerCommand (session_id goal mid : String) (ts : Nat) : AgentMessage :=
  { id := mid,
    from_agent := "orchestrator",
    to_agent := "planner",
    type := .command,
    payload := [("action", .str "start_optimization"),
                ("session_id", .str session_id),
                ("goal", .str goal)],
    timestamp := ts,
    correlation_id := none }

/-- `Orchestrator.start_optimization` (base_agent.py lines 269-288).
`raise ValueError(...)` on an unknown session becomes `Except.error`. -/
def Orchestrator.start_optimization (o : Orchestrator) (session_id : String)
    (mid : String) (ts : Nat) : Except PyError Orchestrator :=
  match assocGet o.active_goals session_id with
  | none => .error (.valueError ("Unknown session: " ++ session_id))
  | some context =>
      .ok { o with
            message_bus :=
              o.message_bus.send (plannerCommand session_id context.goal mid ts) }

/-- `Orchestrator.get_progress` (base_agent.py lines 290-301).  The body only
reads state, so it is a pure function of the orchestrator. -/
def Orchestrator.get_progress (o : Orchestrator) (session_id : String) :
    ProgressReport :=
  match assocGet o.active_goals session_id with
  | none => .error "Unknown session"
  | some context =>
      .report session_id context.goal context.data
        o.message_bus.get_system_stats

/-- Arguments of one `BaseAgent.send_message` call made by a handler: the
bus then builds an `AgentMessage` from them with a fresh id and timestamp. -/
structure Outgoing where
  to_agent : String
  msg_type : MessageType
  payload : List (String × Value)
  correlation_id : Option String

/-- State of the `PlannerAgent` visible to its handlers: the bound context
and the sequence of `send_message` calls it has made. -/
structure PlannerState where
  context : Option AgentContext
  outbox : List Outgoing

/-- First stage of reading `context.get("pending_responses", [])` as the
list of agent-id strings the planner stores there. -/
def strOf : Value → Option String
  | .str s => some s
  | _ => none

/-- Coerce the stored pending-responses value back to a list of strings; in
every reachable state the stored value is exactly such a list. -/
def strListOf : Value → List String
  | .arr vs => vs.filterMap strOf
  | _ => []

/-- Encode a list of agent ids as the stored blackboard value. -/
def toVal (l : List String) : Value := .arr (l.map .str)

/-- The pending-responses list the planner reads at the top of
`handle_response` (`self.context.get("pending_responses", [])`). -/
def ctxPending (c : AgentContext) : List String :=
  strListOf ((c.get "pending_responses").getD (.arr []))

/-- Python comparison `context.get("planning_status") == "waiting_for_data"`
(false on `None` and on any non-string value). -/
def isWaiting : Option Value → Bool
  | some (.str s) => s == "waiting_for_data"
  | _ => false

/-- `PlannerAgent.trigger_optimization` (route_agents.py lines 112-128):
send the consolidated Request to the optimizer and mark the session
`"optimizing"`.  Returns the updated context and outbox. -/
def PlannerAgent.trigger_optimization (c : AgentContext)
    (outbox : List Outgoing) : AgentContext × List Outgoing :=
  ( c.set "planning_status" (.str "optimizing"),
    outbox ++ [{ to_agent := "optimizer",
                 msg_type := .request,
                 payload := [("action", .str "optimize_route"),
                             ("weather_data", (c.get "weather_data").getD .null),
                             ("fuel_data", (c.get "fuel_data").getD .null),
                             ("network_data", (c.get "network_data").getD .null)],
                 correlation_id := some c.session_id }] )

/-- Effect on the context of the pending-membership branch of
`handle_response` (route_agents.py lines 99-104): re-store the pending list
with the sender removed and record the sender's payload under
`"<sender>_data"`. -/
def respCtx (s : String) (payload : List (String × Value))
    (c : AgentContext) : AgentContext :=
  (c.set "pending_responses" (toVal ((ctxPending c).erase s))).set
    (s ++ "_data") (.dict payload)

/-- `PlannerAgent.handle_response` (route_agents.py lines 92-110): remove a
pending sender, store its payload under `"<sender>_data"`, and trigger the
optimizer exactly when the pending list empties while the session is still
`"waiting_for_data"`. -/
def PlannerAgent.handle_response (message : AgentMessage)
    (st : PlannerState) : PlannerState :=
  match st.context with
  | none => st
  | some c0 =>
    let pr : List String × AgentContext :=
      if message.from_agent ∈ ctxPending c0 then
        ((ctxPending c0).erase message.from_agent,
         respCtx message.from_agent message.payload c0)
      else (ctxPending c0, c0)
    if pr.1.isEmpty && isWaiting (pr.2.get "planning_status") then
      { context := some (PlannerAgent.trigger_optimization pr.2 st.outbox).1,
        outbox := (PlannerAgent.trigger_optimization pr.2 st.outbox).2 }
    else
      { context := some pr.2, outbox := st.outbox }

/-- The three fan-out Requests of `PlannerAgent.decompose_and_delegate`
(route_agents.py lines 51-85), in program order. -/
def fanout (session_id : String) : List Outgoing :=
  [ { to_agent := "weather",
      msg_type := .request,
      payload := [("action", .str "get_forecast"),
                  ("origin", .str "PTY"),
                  ("destination", .str "BOG"),
                  ("time_range", .str "next_24_hours")],
      correlation_id := some session_id },
    { to_agent := "fuel",
      msg_type := .request,
      payload := [("action", .str "get_fuel_analysis"),
                  ("origin", .str "PTY"),
                  ("destination", .str "BOG")],
      correlation_id := some session_id },
    { to_agent := "network",
      msg_type := .request,
      payload := [("action", .str "check_constraints"),
                  ("route", .str "PTY-BOG")],
      correlation_id := some session_id } ]

/-- `PlannerAgent.decompose_and_delegate` (route_agents.py lines 32-90):
read `payload["goal"]` and `payload["session_id"]` (a missing key raises
`KeyError`; a non-string session id is outside the modelled behavior and
also mapped to an error), send the three fan-out Requests, then record the
waiting state on the context when one is bound. -/
def PlannerAgent.decompose_and_delegate (payload : List (String × Value))
    (st : PlannerState) : Except PyError PlannerState :=
  match assocGet payload "goal", assocGet payload "session_id" with
  | none, _ => .error (.keyError "goal")
  | some _, none => .error (.keyError "session_id")
  | some _, some (.str session_id) =>
      let st1 : PlannerState := { st with outbox := st.outbox ++ fanout session_id }
      .ok (match st1.context with
           | some c =>
               { st1 with
                 context := some ((c.set "planning_status"
                     (.str "waiting_for_data")).set "pending_responses"
                     (toVal ["weather", "fuel", "network"])) }
           | none => st1)
  | some _, some _ => .error (.valueError "session_id is not a string")

/-- `PlannerAgent.handle_command` (route_agents.py lines 27-30). -/
def PlannerAgent.handle_command (message : AgentMessage)
    (st : PlannerState) : Except PyError PlannerState :=
  match assocGet message.payload "action" with
  | some (.str s) =>
      if s = "start_optimization" then
        PlannerAgent.decompose_and_delegate message.payload st
      else .ok st
  | _ => .ok st

/-- Deliver a finite sequence of messages to the planner's
`handle_response`, one handler invocation per message in order (the agent's
loop is strictly sequential). -/
def runPlanner (msgs : List AgentMessage) (st : PlannerState) : PlannerState :=
  msgs.foldl (fun s m => PlannerAgent.handle_response m s) st

/-- The pending-responses list of a planner state. -/
def pendingOf (st : PlannerState) : List String :=
  match st.context with
  | some c => ctxPending c
  | none => []

/-- The stored planning status of a planner state. -/
def statusOf (st : PlannerState) : Option Value :=
  st.context.bind (fun c => c.get "planning_status")

/-- Number of messages the planner has sent to the optimizer. -/
def optCount (st : PlannerState) : Nat :=
  (st.outbox.filter (fun o => o.to_agent == "optimizer")).length

/-- The fixed responder set of the decomposition stage. -/
def pendingBase : List String := ["weather", "fuel", "network"]

/-- Invariant of the scatter/gather stage, entered with the full pending set
and status `"waiting_for_data"`: either the stage is still waiting with a
nonempty pending subset and no optimizer request sent, or it has advanced
with an empty pending set and exactly one optimizer request sent. -/
def PlannerInv (st : PlannerState) : Prop :=
  (∃ c, st.context = some c) ∧ List.Sublist (pendingOf st) pendingBase ∧
  ((statusOf st = some (.str "waiting_for_data") ∧ pendingOf st ≠ [] ∧
      optCount st = 0) ∨
   (statusOf st = some (.str "optimizing") ∧ pendingOf st = [] ∧
      optCount st = 1))

/-- A message sequence covers all three fan-out responders. -/
def coveredBy (msgs : List AgentMessage) : Prop :=
  "weather" ∈ msgs.map (fun m => m.from_agent) ∧
  "fuel" ∈ msgs.map (fun m => m.from_agent) ∧
  "network" ∈ msgs.map (fun m => m.from_agent)

/-- A freshly constructed agent that has processed no message: the state of
any `BaseAgent.__init__` result with counters at their initial values. -/
def zeroAgent : AgentRec :=
  { agent_id := "idle-agent",
    capabilities := [],
    status := .idle,
    tasks_completed := 0,
    tasks_failed := 0,
    total_time := 0,
    inbox := [],
    context := none }

/-- A registered agent with the given id and an empty inbox. -/
def mkAgent (id : String) : AgentRec := { zeroAgent with agent_id := id }

/-- A broadcast Event sent by agent `alpha` (the shape `broadcast_event`
produces). -/
def alphaMsg : AgentMessage :=
  { id := "m-1", from_agent := "alpha", to_agent := "broadcast",
    type := .event,
    payload := [("event", .str "ping"), ("data", .dict [])],
    timestamp := 0, correlation_id := none }

/-- A bus with two registered agents `alpha` and `beta`. -/
def busTwo : MessageBus :=
  { agents := [mkAgent "alpha", mkAgent "beta"], message_log := [] }

/-- A unicast Request addressed to an unregistered id. -/
def ghostMsg : AgentMessage :=
  { id := "m-2", from_agent := "alpha", to_agent := "ghost",
    type := .request, payload := [], timestamp := 1, correlation_id := none }

/-- A bus with the single registered agent `alpha`. -/
def busOne : MessageBus :=
  { agents := [mkAgent "alpha"], message_log := [] }

/-- A message sitting in a bus log. -/
def loggedMsg : AgentMessage :=
  { id := "m-0", from_agent := "a", to_agent := "b",
    type := .request, payload := [], timestamp := 0, correlation_id := none }

/-- A bus whose log holds exactly one message. -/
def busLogged : MessageBus :=
  { agents := [], message_log := [loggedMsg] }

/-- An orchestrator with no sessions and an empty bus. -/
def orchEmpty : Orchestrator :=
  { message_bus := { agents := [], message_log := [] }, active_goals := [] }

/-- The session context of the `set_goal("test goal")` scenario. -/
def testCtx : AgentContext :=
  { session_id := "S1", goal := "test goal", data := [] }

/-- An orchestrator holding the single session `S1` on a bus with the
planner registered. -/
def orchOne : Orchestrator :=
  { message_bus := { agents := [mkAgent "planner"], message_log := [] },
    active_goals := [("S1", testCtx)] }

/-- Planner state at the start of the gather phase: a bound context and no
sends recorded yet. -/
def initPlanner (c : AgentContext) : PlannerState :=
  { context := some c, outbox := [] }

/-- The context `decompose_and_delegate` leaves behind: full pending set,
status `"waiting_for_data"`. -/
def waitCtx : AgentContext :=
  { session_id := "S1", goal := "test goal",
    data := [("planning_status", .str "waiting_for_data"),
             ("pending_responses", toVal pendingBase)] }

/-- A Response message from sender `s` to the planner. -/
def respMsg (s : String) : AgentMessage :=
  { id := "r-" ++ s, from_agent := s, to_agent := "planner",
    type := .response, payload := [("confidence", .str "high")],
    timestamp := 2, correlation_id := some "S1" }

/-- A response sequence covering all three responders, with duplicates
before and after the gather completes. -/
def respSeq : List AgentMessage :=
  [respMsg "weather", respMsg "weather", respMsg "fuel",
   respMsg "network", respMsg "fuel"]

theorem strListOf_toVal (l : List String) : strListOf (toVal l) = l := by
  induction l with
  | nil => rfl
  | cons a t ih =>
      simp [strListOf, toVal, strOf, List.filterMap] at ih ⊢
      exact ih

theorem assocGet_set_same {α : Type} (d : List (String × α)) (k : String)
    (v : α) : assocGet (assocSet d k v) k = some v := by
  induction d with
  | nil => simp [assocGet, assocSet]
  | cons p t ih =>
      by_cases h : p.1 = k
      · simp [assocSet, assocGet, h]
      · simp [assocSet, assocGet, h, ih]

theorem assocGet_set_ne {α : Type} (d : List (String × α)) (k k' : String)
    (v : α) (h : k ≠ k') : assocGet (assocSet d k v) k' = assocGet d k' := by
  induction d with
  | nil => simp [assocGet, assocSet, h]
  | cons p t ih =>
      by_cases hp : p.1 = k
      · simp [assocSet, assocGet, hp, h]
      · simp [assocSet, assocGet, hp, ih]

theorem ctx_get_set_same (c : AgentContext) (k : String) (v : Value) :
    (c.set k v).get k = some v := by
  simp [AgentContext.get, AgentContext.set, assocGet_set_same]

theorem ctx_get_set_ne (c : AgentContext) (k k' : String) (v : Value)
    (h : k ≠ k') : (c.set k v).get k' = c.get k' := by
  simp [AgentContext.get, AgentContext.set, assocGet_set_ne _ _ _ _ h]

theorem processMessages_tasks_failed :
    ∀ (outs : List HandlerOutcome) (a : AgentRec),
      (BaseAgent.processMessages a outs).1.tasks_failed =
        a.tasks_failed + countRaises outs
  | [], a => by simp [BaseAgent.processMessages, countRaises]
  | .ok e :: rest, a => by
      simp [BaseAgent.processMessages, BaseAgent.processOne, countRaises,
        List.filter] at *
      simpa [countRaises] using processMessages_tasks_failed rest _
  | .raises e :: rest, a => by
      have ih := processMessages_tasks_failed rest
        (BaseAgent.processOne a (.raises e)).1
      simp [BaseAgent.processMessages, BaseAgent.processOne, countRaises,
        List.filter] at ih ⊢
      omega

/-- C2: a handler that raises is caught by one iteration of
`process_messages`: the agent's status becomes Error, `tasks_failed` grows
by exactly one, the error hook `handle_error` runs (producing its log
line), and the loop goes on to process the rest of the queue; over any
queue, `tasks_failed` grows by exactly the number of raising handlers, and
the loop — a total function in this embedding, because `except Exception`
catches every handler failure — never propagates the exception. -/
theorem process_messages_error_isolation (a : AgentRec) (e : String)
    (rest : List HandlerOutcome) :
    (BaseAgent.processOne a (.raises e)).1.status = AgentStatus.error ∧
    (BaseAgent.processOne a (.raises e)).1.tasks_failed = a.tasks_failed + 1 ∧
    (BaseAgent.processOne a (.raises e)).2 =
      ["[" ++ a.agent_id ++ "] ERROR: " ++ e] ∧
    BaseAgent.processMessages a (HandlerOutcome.raises e :: rest) =
      ((BaseAgent.processMessages (BaseAgent.processOne a (.raises e)).1 rest).1,
       ("[" ++ a.agent_id ++ "] ERROR: " ++ e) ::
         (BaseAgent.processMessages
           (BaseAgent.processOne a (.raises e)).1 rest).2) ∧
    (∀ outs : List HandlerOutcome,
       (BaseAgent.processMessages a outs).1.tasks_failed =
         a.tasks_failed + countRaises outs) :=
  ⟨rfl, rfl, rfl, rfl, fun outs => processMessages_tasks_failed outs a⟩

/-- C9: the failing iteration of the loop touches only `status` and
`tasks_failed` (plus the hook's printed line): `tasks_completed` and
`total_time` are unchanged, so a failed message never contributes to the
completed count or to the average handling time. -/
theorem failed_iteration_frame (a : AgentRec) (e : String) :
    (BaseAgent.processOne a (.raises e)).1.tasks_completed =
      a.tasks_completed ∧
    (BaseAgent.processOne a (.raises e)).1.total_time = a.total_time ∧
    (BaseAgent.processOne a (.raises e)).1 =
      { a with status := AgentStatus.error,
               tasks_failed := a.tasks_failed + 1 } :=
  ⟨rfl, rfl, rfl⟩

/-- C3 counterexample: an agent with zero completed and zero failed tasks
reports `success_rate = 0`, not `1` as the claim states — the
`max(..., 1)` floor only fixes the denominator, leaving `0 / 1 = 0`. -/
theorem zero_task_success_rate_counterexample :
    (BaseAgent.get_stats zeroAgent).success_rate = 0 ∧
    (BaseAgent.get_stats zeroAgent).success_rate ≠ 1 := by
  constructor <;> norm_num [BaseAgent.get_stats, zeroAgent]

/-- C3 amended: an agent with `tasks_completed = 0`, `tasks_failed = 0` and
`total_time = 0` reports `avg_time_per_task = 0` and `success_rate = 0`
(not `1.0`): both divisions have the `max(..., 1)` floor giving
denominator 1 and numerator 0. -/
theorem zero_task_stats (a : AgentRec) (hc : a.tasks_completed = 0)
    (hf : a.tasks_failed = 0) (ht : a.total_time = 0) :
    (BaseAgent.get_stats a).avg_time_per_task = 0 ∧
    (BaseAgent.get_stats a).success_rate = 0 := by
  constructor <;> simp [BaseAgent.get_stats, hc, hf, ht]

/-- Witness for `zero_task_stats` at the concrete zero-task agent. -/
theorem zero_task_stats_witness :
    (BaseAgent.get_stats zeroAgent).avg_time_per_task = 0 ∧
    (BaseAgent.get_stats zeroAgent).success_rate = 0 :=
  zero_task_stats zeroAgent rfl rfl rfl

/-- C10: `AgentContext.set` and `AgentContext.update` modify only the
`data` mapping: `session_id` and `goal` are untouched, so the blackboard
operations can never alter a session's identity or goal text. -/
theorem context_set_update_frame (c : AgentContext) (k : String) (v : Value)
    (us : List (String × Value)) :
    (c.set k v).session_id = c.session_id ∧ (c.set k v).goal = c.goal ∧
    (c.update us).session_id = c.session_id ∧ (c.update us).goal = c.goal :=
  ⟨rfl, rfl, rfl, rfl⟩

theorem inboxLookup_broadcast (l : List AgentRec) (msg : AgentMessage)
    (hnd : (l.map (fun a => a.agent_id)).Nodup) :
    ∀ a ∈ l,
      inboxLookup (l.map (fun x =>
          if x.agent_id ≠ msg.from_agent then
            { x with inbox := x.inbox ++ [msg] }
          else x)) a.agent_id =
        if a.agent_id = msg.from_agent then a.inbox else a.inbox ++ [msg] := by
  induction l with
  | nil => intro a ha; cases ha
  | cons b t ih =>
      intro a ha
      simp only [List.map_cons, List.nodup_cons] at hnd
      rcases List.mem_cons.mp ha with rfl | hat
      · by_cases hb : a.agent_id = msg.from_agent
        · rw [List.map_cons, if_neg (not_not_intro hb)]
          simp [inboxLookup, hb]
        · rw [List.map_cons, if_pos hb]
          simp [inboxLookup, hb]
      · have hne : b.agent_id ≠ a.agent_id := by
          intro hcontra
          exact hnd.1 (hcontra ▸ List.mem_map_of_mem (fun x => x.agent_id) hat)
        have ihr := ih hnd.2 a hat
        by_cases hbb : b.agent_id = msg.from_agent
        · rw [List.map_cons, if_neg (not_not_intro hbb)]
          simpa [inboxLookup, hne] using ihr
        · rw [List.map_cons, if_pos hbb]
          simpa [inboxLookup, hne] using ihr

/-- C5: a broadcast message from a registered agent is appended exactly once
to the inbox of every other registered agent, and never to the sender's own
inbox (`MessageBus.send`, broadcast branch). -/
theorem broadcast_exclusion (bus : MessageBus) (msg : AgentMessage)
    (hnd : (bus.agents.map (fun a => a.agent_id)).Nodup)
    (_hreg : msg.from_agent ∈ bus.agents.map (fun a => a.agent_id))
    (hto : msg.to_agent = "broadcast") :
    ∀ a ∈ bus.agents,
      (bus.send msg).inboxOf a.agent_id =
        if a.agent_id = msg.from_agent then a.inbox else a.inbox ++ [msg] := by
  intro a ha
  have hsend : (bus.send msg).agents =
      bus.agents.map (fun x =>
        if x.agent_id ≠ msg.from_agent then
          { x with inbox := x.inbox ++ [msg] }
        else x) := by
    simp [MessageBus.send, hto]
  rw [MessageBus.inboxOf, hsend]
  exact inboxLookup_broadcast bus.agents msg hnd a ha

/-- Witness for `broadcast_exclusion`: on a bus with agents `alpha` and
`beta`, a broadcast from `alpha` lands once in `beta`'s inbox and not in
`alpha`'s. -/
theorem broadcast_exclusion_witness :
    (busTwo.send alphaMsg).inboxOf "beta" = (mkAgent "beta").inbox ++ [alphaMsg] ∧
    (busTwo.send alphaMsg).inboxOf "alpha" = (mkAgent "alpha").inbox := by
  have h := broadcast_exclusion busTwo alphaMsg (by decide) (by decide) rfl
  constructor
  · have hb := h (mkAgent "beta")
      (List.mem_cons_of_mem _ (List.mem_cons_self _ _))
    simpa using hb
  · have ha := h (mkAgent "alpha") (List.mem_cons_self _ _)
    simpa using ha

/-- C6: sending to an identifier that is neither the broadcast sentinel nor
a registered agent does not raise (`send` is total), changes no inbox, and
still appends the message to the log. -/
theorem unknown_recipient_drop (bus : MessageBus) (msg : AgentMessage)
    (hto : msg.to_agent ≠ "broadcast")
    (hreg : ∀ a ∈ bus.agents, a.agent_id ≠ msg.to_agent) :
    bus.send msg = { bus with message_log := bus.message_log ++ [msg] } := by
  have hany : bus.agents.any (fun a => a.agent_id == msg.to_agent) = false := by
    rw [List.any_eq_false]
    intro a ha
    simpa using hreg a ha
  simp [MessageBus.send, hto, hany]

/-- Witness for `unknown_recipient_drop` at a concrete bus and recipient. -/
theorem unknown_recipient_drop_witness :
    busOne.send ghostMsg =
      { busOne with message_log := busOne.message_log ++ [ghostMsg] } :=
  unknown_recipient_drop busOne ghostMsg (by decide)
    (by intro a ha; simp [busOne] at ha; subst ha; decide)

/-- C7 counterexample: with one logged message, `get_message_history(0)`
returns the whole log (the Python slice `log[-0:]` is `log[0:]`), i.e. one
entry, not the `min(0, 1) = 0` entries the claim demands. -/
theorem history_limit_zero_counterexample :
    (busLogged.get_message_history 0).length ≠
      min 0 busLogged.message_log.length ∧
    busLogged.get_message_history 0 =
      busLogged.message_log.map AgentMessage.to_dict := by
  exact ⟨by decide, rfl⟩

/-- C7 amended: for every limit ≥ 1, `get_message_history` returns exactly
the `min limit length` most recent log entries in chronological order (the
reversed take of the reversed log), and — being a pure function of the bus —
leaves the log unchanged.  For limit = 0 the whole log is returned instead. -/
theorem message_history_recent (bus : MessageBus) (limit : Nat)
    (h : 1 ≤ limit) :
    bus.get_message_history limit =
      ((bus.message_log.reverse.take limit).reverse).map AgentMessage.to_dict ∧
    (bus.get_message_history limit).length =
      min limit bus.message_log.length := by
  have hz : limit ≠ 0 := by omega
  have key : (bus.message_log.reverse.take limit).reverse
      = bus.message_log.drop (bus.message_log.length - limit) := by
    rw [← List.rtake_eq_reverse_take_reverse, List.rtake]
  constructor
  · simp [MessageBus.get_message_history, hz, key]
  · simp only [MessageBus.get_message_history, hz, if_false, ite_false,
      List.length_map, List.length_drop]
    omega

/-- Witness for `message_history_recent` at limit 1 on a one-message log. -/
theorem message_history_recent_witness :
    busLogged.get_message_history 1 =
      ((busLogged.message_log.reverse.take 1).reverse).map
        AgentMessage.to_dict :=
  (message_history_recent busLogged 1 (by decide)).1

theorem send_log (bus : MessageBus) (m : AgentMessage) :
    (bus.send m).message_log = bus.message_log ++ [m] := by
  simp only [MessageBus.send]
  split
  · rfl
  · split
    · rfl
    · rfl

/-- C4 counterexample: on an unknown session id, `start_optimization` does
not return a structured error result — it raises `ValueError` (rendered as
`Except.error` in this embedding), while `get_progress` does return the
structured error dict. -/
theorem unknown_session_raises_counterexample :
    Orchestrator.start_optimization orchEmpty "nonexistent-id" "m-3" 0 =
      .error (.valueError "Unknown session: nonexistent-id") ∧
    orchEmpty.get_progress "nonexistent-id" = .error "Unknown session" :=
  ⟨rfl, rfl⟩

/-- C4 amended: for every session id absent from `active_goals`,
`get_progress` returns the structured `{"error": "Unknown session"}` result
without mutating anything (it is a pure function of the orchestrator),
while `start_optimization` raises `ValueError("Unknown session: ...")`
rather than returning a structured error. -/
theorem unknown_session_handling (o : Orchestrator) (sid mid : String)
    (ts : Nat) (h : assocGet o.active_goals sid = none) :
    o.start_optimization sid mid ts =
      .error (.valueError ("Unknown session: " ++ sid)) ∧
    o.get_progress sid = .error "Unknown session" := by
  constructor <;>
    simp [Orchestrator.start_optimization, Orchestrator.get_progress, h]

/-- Witness for `unknown_session_handling` on an empty session map. -/
theorem unknown_session_handling_witness :
    orchEmpty.start_optimization "nope" "m-4" 0 =
      .error (.valueError ("Unknown session: " ++ "nope")) ∧
    orchEmpty.get_progress "nope" = .error "Unknown session" :=
  unknown_session_handling orchEmpty "nope" "m-4" 0 rfl

/-- C8 counterexample: the Command actually sent to the planner carries
`action = "start_optimization"`, not `action = "start"` as the claim
states. -/
theorem start_action_counterexample :
    (Orchestrator.start_optimization orchOne "S1" "m-5" 0).map
        (fun o => o.message_bus.message_log.map
          (fun m => assocGet m.payload "action")) =
      .ok [some (.str "start_optimization")] ∧
    some (Value.str "start_optimization") ≠ some (Value.str "start") := by
  refine ⟨rfl, ?_⟩
  intro h
  simp only [Option.some.injEq, Value.str.injEq] at h
  exact absurd h (by decide)

/-- C8 amended: for a session `S` present in `active_goals`,
`start_optimization` performs exactly one `send` of a Command to
`"planner"` whose payload is `action = "start_optimization"` (not
`"start"`), `session_id = S` and the session's goal; the planner's
`handle_command` on that message fans out exactly the three Requests to
weather, fuel and network, each with `correlation_id = S`. -/
theorem start_optimization_fanout (o : Orchestrator) (S mid : String)
    (ts : Nat) (c : AgentContext)
    (h : assocGet o.active_goals S = some c) :
    o.start_optimization S mid ts =
      .ok { o with
            message_bus := o.message_bus.send (plannerCommand S c.goal mid ts) } ∧
    (o.start_optimization S mid ts).map
        (fun r => r.message_bus.message_log) =
      .ok (o.message_bus.message_log ++ [plannerCommand S c.goal mid ts]) ∧
    (plannerCommand S c.goal mid ts).to_agent = "planner" ∧
    (plannerCommand S c.goal mid ts).type = .command ∧
    assocGet (plannerCommand S c.goal mid ts).payload "action" =
      some (.str "start_optimization") ∧
    assocGet (plannerCommand S c.goal mid ts).payload "session_id" =
      some (.str S) ∧
    assocGet (plannerCommand S c.goal mid ts).payload "goal" =
      some (.str c.goal) ∧
    (∀ pst : PlannerState,
       (PlannerAgent.handle_command (plannerCommand S c.goal mid ts) pst).map
           PlannerState.outbox =
         .ok (pst.outbox ++ fanout S)) ∧
    (fanout S).map (fun og => og.to_agent) = ["weather", "fuel", "network"] ∧
    (fanout S).map (fun og => og.msg_type) = [.request, .request, .request] ∧
    (fanout S).map (fun og => og.correlation_id) = [some S, some S, some S] := by
  refine ⟨?_, ?_, rfl, rfl, ?_, ?_, ?_, ?_, rfl, rfl, rfl⟩
  · simp [Orchestrator.start_optimization, h]
  · simp [Orchestrator.start_optimization, h, Except.map, send_log]
  · simp [plannerCommand, assocGet]
  · simp [plannerCommand, assocGet]
  · simp [plannerCommand, assocGet]
  · intro pst
    simp only [PlannerAgent.handle_command, plannerCommand,
      PlannerAgent.decompose_and_delegate, assocGet]
    cases hpc : pst.context <;> simp [hpc, Except.map]

/-- Witness for `start_optimization_fanout` on the one-session
orchestrator. -/
theorem start_optimization_fanout_witness :
    orchOne.start_optimization "S1" "m-5" 0 =
      .ok { orchOne with
            message_bus :=
              orchOne.message_bus.send
                (plannerCommand "S1" testCtx.goal "m-5" 0) } :=
  (start_optimization_fanout orchOne "S1" "m-5" 0 testCtx rfl).1

theorem mem_pendingBase (s : String) (hs : s ∈ pendingBase) :
    s = "weather" ∨ s = "fuel" ∨ s = "network" := by
  simpa [pendingBase] using hs

theorem data_key_ne_pending (s : String) (hs : s ∈ pendingBase) :
    s ++ "_data" ≠ "pending_responses" := by
  rcases mem_pendingBase s hs with rfl | rfl | rfl <;> decide

theorem data_key_ne_status (s : String) (hs : s ∈ pendingBase) :
    s ++ "_data" ≠ "planning_status" := by
  rcases mem_pendingBase s hs with rfl | rfl | rfl <;> decide

theorem respCtx_pending (s : String) (payload : List (String × Value))
    (c : AgentContext) (hs : s ∈ pendingBase) :
    ctxPending (respCtx s payload c) = (ctxPending c).erase s := by
  have h1 : (respCtx s payload c).get "pending_responses" =
      some (toVal ((ctxPending c).erase s)) := by
    simp only [respCtx]
    rw [ctx_get_set_ne _ _ _ _ (data_key_ne_pending s hs), ctx_get_set_same]
  rw [ctxPending, h1]
  simp [strListOf_toVal]

theorem respCtx_status (s : String) (payload : List (String × Value))
    (c : AgentContext) (hs : s ∈ pendingBase) :
    (respCtx s payload c).get "planning_status" = c.get "planning_status" := by
  simp only [respCtx]
  rw [ctx_get_set_ne _ _ _ _ (data_key_ne_status s hs),
    ctx_get_set_ne _ _ _ _
      (by decide : "pending_responses" ≠ "planning_status")]

theorem trigger_pending (c : AgentContext) (ob : List Outgoing) :
    ctxPending (PlannerAgent.trigger_optimization c ob).1 = ctxPending c := by
  simp only [PlannerAgent.trigger_optimization, ctxPending]
  rw [ctx_get_set_ne _ _ _ _
    (by decide : "planning_status" ≠ "pending_responses")]

theorem trigger_status (c : AgentContext) (ob : List Outgoing) :
    (PlannerAgent.trigger_optimization c ob).1.get "planning_status" =
      some (.str "optimizing") := by
  simp only [PlannerAgent.trigger_optimization]
  rw [ctx_get_set_same]

theorem trigger_outbox (c : AgentContext) (ob : List Outgoing) :
    ((PlannerAgent.trigger_optimization c ob).2.filter
      (fun o => o.to_agent == "optimizer")).length =
    (ob.filter (fun o => o.to_agent == "optimizer")).length + 1 := by
  simp [PlannerAgent.trigger_optimization, List.filter_append]

theorem handle_response_step (m : AgentMessage) (st : PlannerState)
    (hInv : PlannerInv st) :
    PlannerInv (PlannerAgent.handle_response m st) ∧
    pendingOf (PlannerAgent.handle_response m st) =
      (if m.from_agent ∈ pendingOf st then
        (pendingOf st).erase m.from_agent
      else pendingOf st) ∧
    (m.from_agent ∉ pendingOf st → PlannerAgent.handle_response m st = st) := by
  obtain ⟨⟨c, hc⟩, hsub, hbr⟩ := hInv
  obtain ⟨ctx, ob⟩ := st
  change ctx = some c at hc
  subst hc
  have hps : pendingOf ⟨some c, ob⟩ = ctxPending c := rfl
  by_cases hm : m.from_agent ∈ ctxPending c
  · have hsB : m.from_agent ∈ pendingBase := hsub.subset (hps ▸ hm)
    have hpne : ctxPending c ≠ [] := List.ne_nil_of_mem hm
    rcases hbr with ⟨hw, _, hcnt⟩ | ⟨_, hpe, _⟩
    swap
    · exact absurd (hps ▸ hpe) hpne
    have hwc : c.get "planning_status" = some (.str "waiting_for_data") := hw
    have hcnt0 : (ob.filter (fun o => o.to_agent == "optimizer")).length = 0 :=
      hcnt
    have hstat1 :
        isWaiting ((respCtx m.from_agent m.payload c).get "planning_status") =
          true := by
      rw [respCtx_status _ _ _ hsB, hwc]
      rfl
    by_cases hq : (ctxPending c).erase m.from_agent = []
    · have hres : PlannerAgent.handle_response m ⟨some c, ob⟩ =
          { context := some (PlannerAgent.trigger_optimization
              (respCtx m.from_agent m.payload c) ob).1,
            outbox := (PlannerAgent.trigger_optimization
              (respCtx m.from_agent m.payload c) ob).2 } := by
        simp [PlannerAgent.handle_response, hm, hq, hstat1]
      rw [hres]
      have hp2 : pendingOf
          { context := some (PlannerAgent.trigger_optimization
              (respCtx m.from_agent m.payload c) ob).1,
            outbox := (PlannerAgent.trigger_optimization
              (respCtx m.from_agent m.payload c) ob).2 } = [] := by
        show ctxPending (PlannerAgent.trigger_optimization
          (respCtx m.from_agent m.payload c) ob).1 = []
        rw [trigger_pending, respCtx_pending _ _ _ hsB, hq]
      refine ⟨⟨⟨_, rfl⟩, ?_, Or.inr ⟨?_, hp2, ?_⟩⟩, ?_, ?_⟩
      · rw [hp2]
        exact List.nil_sublist _
      · show (PlannerAgent.trigger_optimization
          (respCtx m.from_agent m.payload c) ob).1.get "planning_status" = _
        rw [trigger_status]
      · show ((PlannerAgent.trigger_optimization
          (respCtx m.from_agent m.payload c) ob).2.filter
            (fun o => o.to_agent == "optimizer")).length = 1
        rw [trigger_outbox, hcnt0]
      · rw [hps, if_pos hm, hp2, hq]
      · intro h
        exact absurd hm h
    · have hqE : ((ctxPending c).erase m.from_agent).isEmpty = false := by
        simp [List.isEmpty_iff, hq]
      have hres : PlannerAgent.handle_response m ⟨some c, ob⟩ =
          { context := some (respCtx m.from_agent m.payload c),
            outbox := ob } := by
        simp [PlannerAgent.handle_response, hm, hqE]
      rw [hres]
      have hp2 : pendingOf
          { context := some (respCtx m.from_agent m.payload c),
            outbox := ob } = (ctxPending c).erase m.from_agent := by
        show ctxPending (respCtx m.from_agent m.payload c) = _
        exact respCtx_pending _ _ _ hsB
      refine ⟨⟨⟨_, rfl⟩, ?_, Or.inl ⟨?_, ?_, hcnt0⟩⟩, ?_, ?_⟩
      · rw [hp2]
        exact (List.erase_sublist _ _).trans (hps ▸ hsub)
      · show (respCtx m.from_agent m.payload c).get "planning_status" = _
        rw [respCtx_status _ _ _ hsB, hwc]
      · rw [hp2]
        exact hq
      · rw [hps, if_pos hm, hp2]
      · intro h
        exact absurd hm h
  · rcases hbr with ⟨hw, hne, hcnt⟩ | ⟨ho, hpe, hcnt⟩
    · have hpE : (ctxPending c).isEmpty = false := by
        simp [List.isEmpty_iff]
        exact hps ▸ hne
      have hres : PlannerAgent.handle_response m ⟨some c, ob⟩ =
          ⟨some c, ob⟩ := by
        simp [PlannerAgent.handle_response, hm, hpE]
      rw [hres]
      exact ⟨⟨⟨c, rfl⟩, hsub, Or.inl ⟨hw, hne, hcnt⟩⟩,
        by rw [hps, if_neg hm], fun _ => rfl⟩
    · have hoc : c.get "planning_status" = some (.str "optimizing") := ho
      have hwF : isWaiting (c.get "planning_status") = false := by
        rw [hoc]
        rfl
      have hres : PlannerAgent.handle_response m ⟨some c, ob⟩ =
          ⟨some c, ob⟩ := by
        simp [PlannerAgent.handle_response, hm, hwF]
      rw [hres]
      exact ⟨⟨⟨c, rfl⟩, hsub, Or.inr ⟨ho, hpe, hcnt⟩⟩,
        by rw [hps, if_neg hm], fun _ => rfl⟩

theorem runPlanner_inv (msgs : List AgentMessage) :
    ∀ st : PlannerState, PlannerInv st → PlannerInv (runPlanner msgs st) := by
  induction msgs with
  | nil => intro st h; exact h
  | cons m rest ih =>
      intro st h
      exact ih _ (handle_response_step m st h).1

theorem runPlanner_not_mem (msgs : List AgentMessage) :
    ∀ (st : PlannerState) (x : String), PlannerInv st →
      x ∉ pendingOf st → x ∉ pendingOf (runPlanner msgs st) := by
  induction msgs with
  | nil => intro st x _ hx; exact hx
  | cons m rest ih =>
      intro st x hInv hx
      have hstep := handle_response_step m st hInv
      refine ih _ x hstep.1 ?_
      rw [hstep.2.1]
      by_cases hm : m.from_agent ∈ pendingOf st
      · rw [if_pos hm]
        intro hcontra
        exact hx (List.mem_of_mem_erase hcontra)
      · rw [if_neg hm]
        exact hx

theorem runPlanner_removed (msgs : List AgentMessage) :
    ∀ (st : PlannerState) (x : String), PlannerInv st →
      x ∈ msgs.map (fun m => m.from_agent) →
      x ∉ pendingOf (runPlanner msgs st) := by
  induction msgs with
  | nil => intro st x _ hx; cases hx
  | cons m rest ih =>
      intro st x hInv hx
      have hstep := handle_response_step m st hInv
      rcases List.mem_cons.mp hx with hxm | hxr
      · -- x is this message's sender: it is gone after the step and
        -- pending only shrinks afterwards
        refine runPlanner_not_mem rest _ x hstep.1 ?_
        rw [hstep.2.1]
        by_cases hm : m.from_agent ∈ pendingOf st
        · rw [if_pos hm]
          have hnd : (pendingOf st).Nodup :=
            (by decide : pendingBase.Nodup).sublist hInv.2.1
          intro hcontra
          rw [hxm] at hcontra
          exact ((hnd.mem_erase_iff).mp hcontra).1 rfl
        · rw [if_neg hm]
          intro hcontra
          have hxm2 : x = m.from_agent := hxm
          rw [hxm2] at hcontra
          exact hm hcontra
      · exact ih _ x hstep.1 hxr

theorem runPlanner_kept (msgs : List AgentMessage) :
    ∀ (st : PlannerState) (x : String), PlannerInv st →
      x ∈ pendingOf st → x ∉ msgs.map (fun m => m.from_agent) →
      x ∈ pendingOf (runPlanner msgs st) := by
  induction msgs with
  | nil => intro st x _ hx _; exact hx
  | cons m rest ih =>
      intro st x hInv hx hnm
      have hxm : x ≠ m.from_agent := by
        intro h
        exact hnm (by simp [h])
      have hxr : x ∉ rest.map (fun m => m.from_agent) := by
        intro h
        exact hnm (by simp [h])
      have hstep := handle_response_step m st hInv
      refine ih _ x hstep.1 ?_ hxr
      rw [hstep.2.1]
      by_cases hm : m.from_agent ∈ pendingOf st
      · rw [if_pos hm]
        exact (List.mem_erase_of_ne hxm).mpr hx
      · rw [if_neg hm]
        exact hx

/-- C1: starting from the gather state `decompose_and_delegate` leaves
behind — pending set `{weather, fuel, network}`, `planning_status =
"waiting_for_data"` — delivering any finite sequence of Response messages
whose senders cover all three responders makes `handle_response` send the
consolidated optimizer Request exactly once; no prefix that misses a
responder has sent it, so it fires exactly at the step removing the last
distinct pending sender; and any Response whose sender is no longer
pending (duplicates, or arrivals after advancement) leaves the planner
state completely unchanged. -/
theorem planner_scatter_gather (c : AgentContext)
    (hpend : c.get "pending_responses" = some (toVal pendingBase))
    (hstat : c.get "planning_status" = some (Value.str "waiting_for_data"))
    (msgs : List AgentMessage)
    (_hty : ∀ m ∈ msgs, m.type = MessageType.response)
    (hw : "weather" ∈ msgs.map (fun m => m.from_agent))
    (hf : "fuel" ∈ msgs.map (fun m => m.from_agent))
    (hn : "network" ∈ msgs.map (fun m => m.from_agent)) :
    optCount (runPlanner msgs (initPlanner c)) = 1 ∧
    (∀ p q, msgs = p ++ q → ¬coveredBy p →
       optCount (runPlanner p (initPlanner c)) = 0) ∧
    (∀ p m q, msgs = p ++ m :: q →
       m.from_agent ∉ pendingOf (runPlanner p (initPlanner c)) →
       PlannerAgent.handle_response m (runPlanner p (initPlanner c)) =
         runPlanner p (initPlanner c)) := by
  have hps0 : pendingOf (initPlanner c) = pendingBase := by
    show ctxPending c = pendingBase
    rw [ctxPending, hpend]
    simp [strListOf_toVal]
  have hInv0 : PlannerInv (initPlanner c) := by
    refine ⟨⟨c, rfl⟩, ?_, Or.inl ⟨hstat, ?_, rfl⟩⟩
    · rw [hps0]
    · rw [hps0]
      decide
  refine ⟨?_, ?_, ?_⟩
  · have hfin := runPlanner_inv msgs _ hInv0
    have hw2 := runPlanner_removed msgs _ "weather" hInv0 hw
    have hf2 := runPlanner_removed msgs _ "fuel" hInv0 hf
    have hn2 := runPlanner_removed msgs _ "network" hInv0 hn
    have hempty : pendingOf (runPlanner msgs (initPlanner c)) = [] := by
      refine List.eq_nil_iff_forall_not_mem.mpr ?_
      intro y hy
      have hyB : y ∈ pendingBase := hfin.2.1.subset hy
      rcases mem_pendingBase y hyB with rfl | rfl | rfl
      · exact hw2 hy
      · exact hf2 hy
      · exact hn2 hy
    rcases hfin.2.2 with ⟨_, hne, _⟩ | ⟨_, _, hcnt⟩
    · exact absurd hempty hne
    · exact hcnt
  · intro p q hpq hnc
    have hInvp := runPlanner_inv p _ hInv0
    have hx : ∃ x, x ∈ pendingBase ∧ x ∉ p.map (fun m => m.from_agent) := by
      by_contra hall
      push_neg at hall
      exact hnc ⟨hall "weather" (by decide), hall "fuel" (by decide),
        hall "network" (by decide)⟩
    obtain ⟨x, hxB, hxnp⟩ := hx
    have hxp : x ∈ pendingOf (runPlanner p (initPlanner c)) :=
      runPlanner_kept p _ x hInv0 (hps0 ▸ hxB) hxnp
    rcases hInvp.2.2 with ⟨_, _, hcnt⟩ | ⟨_, hpe, _⟩
    · exact hcnt
    · exact absurd hpe (List.ne_nil_of_mem hxp)
  · intro p m q hpq hnm
    exact (handle_response_step m _ (runPlanner_inv p _ hInv0)).2.2 hnm

/-- Witness for `planner_scatter_gather`: the concrete sequence
weather, weather, fuel, network, fuel yields exactly one optimizer
Request. -/
theorem planner_scatter_gather_witness :
    optCount (runPlanner respSeq (initPlanner waitCtx)) = 1 :=
  (planner_scatter_gather waitCtx rfl rfl respSeq (by decide) (by decide)
    (by decide) (by decide)).1
